import Mathlib

/-!
Verification development for the PromptQA orchestration layer.

Shallow embedding of the TypeScript sources:
  - `src/schema/results.ts`   (verdicts, evaluation results, summary decision)
  - `src/schema/prescan.ts`   (selector hints, step schemas, step-list schema)
  - `src/schema/capture.ts`   (capture frames, JSON output contract)
  - `src/core/planner.ts`     (fixupRawSteps, tryParse validation path)
  - the evaluator module      (tryParse with confidence clamping, fallback)
  - the selector resolver     (resolveSelector / resolveRole)
  - `src/browser/runner.ts`   (performAction dispatch, executeStep)
  - `src/core/agentLoop.ts`   (classifyFailure, the plan-once execution loop)
  - the reporter module       (generateJSON, serializeJSON)

JavaScript numbers are modelled as rationals (`ℚ`), JS strings as Lean
`String`, thrown exceptions as `Except`/`Option`, and the surrounding
I/O (browser driver, LLM transport, clock) as explicit oracle arguments.
-/

-- ══════════════════════════════════════════════════════════════
-- §1  Data model (src/schema)
-- ══════════════════════════════════════════════════════════════

/-- `evaluationVerdictSchema = z.enum(['PASS', 'FAIL', 'UNCERTAIN'])`. -/
inductive Verdict where
  | PASS
  | FAIL
  | UNCERTAIN
deriving DecidableEq, Repr

/-- `evaluationResultSchema`: result, confidence in [0,1], non-empty reason.
The range/non-emptiness constraints are enforced by the validator
`parseEvaluationResultJson` below, not by the carrier type. -/
structure EvaluationResult where
  result : Verdict
  confidence : ℚ
  reason : String
deriving DecidableEq, Repr

/-- `consoleLevelSchema = z.enum(['error', 'warn'])`. -/
inductive ConsoleLevel where
  | error
  | warn
deriving DecidableEq, Repr

/-- `consoleEntrySchema` from src/schema/capture.ts. -/
structure ConsoleEntry where
  level : ConsoleLevel
  text : String
deriving DecidableEq, Repr

/-- `networkFailureSchema` from src/schema/capture.ts. -/
structure NetworkFailure where
  url : String
  status : Int
  statusText : String
  method : String
deriving DecidableEq, Repr

/-- `pageErrorEntrySchema` from src/schema/capture.ts. -/
structure PageErrorEntry where
  message : String
deriving DecidableEq, Repr

/-- `stepCaptureSchema` from src/schema/capture.ts. -/
structure StepCapture where
  consoleEntries : List ConsoleEntry
  networkFailures : List NetworkFailure
  pageErrors : List PageErrorEntry
deriving DecidableEq, Repr

/-- `selectorStrategySchema = z.enum(['testid', 'role', 'text', 'css'])`. -/
inductive Strategy where
  | testid
  | role
  | text
  | css
deriving DecidableEq, Repr

/-- `selectorHintSchema`: strategy, non-empty value, optional role and name.
Note that `role` and `name` are `z.string().optional()` — the schema itself
places no constraint tying `role` to `strategy = role`. -/
structure SelectorHint where
  strategy : Strategy
  value : String
  role : Option String
  name : Option String
deriving DecidableEq, Repr

/-- `stepTypeSchema` from src/schema/prescan.ts (second document, step.ts). -/
inductive StepType where
  | goto
  | click
  | type
  | select
  | upload
  | wait
  | expect_text
  | press_key
deriving DecidableEq, Repr

/-- `stepSchema = z.discriminatedUnion('type', [...])`: each variant carries a
non-empty description and an optional positive integer timeout. -/
inductive Step where
  | goto (description : String) (timeout : Option Int) (value : String)
  | click (description : String) (timeout : Option Int) (selector : SelectorHint)
  | type (description : String) (timeout : Option Int) (selector : SelectorHint) (value : String)
  | select (description : String) (timeout : Option Int) (selector : SelectorHint) (value : String)
  | upload (description : String) (timeout : Option Int) (selector : SelectorHint) (value : String)
  | wait (description : String) (timeout : Option Int) (selector : Option SelectorHint) (value : Option String)
  | expect_text (description : String) (timeout : Option Int) (selector : Option SelectorHint) (value : String)
  | press_key (description : String) (timeout : Option Int) (value : String)
deriving DecidableEq, Repr

/-- The `type` discriminator of a step. -/
def Step.stepType : Step → StepType
  | .goto .. => .goto
  | .click .. => .click
  | .type .. => .type
  | .select .. => .select
  | .upload .. => .upload
  | .wait .. => .wait
  | .expect_text .. => .expect_text
  | .press_key .. => .press_key

/-- The `description` field common to every step variant. -/
def Step.description : Step → String
  | .goto d _ _ => d
  | .click d _ _ => d
  | .type d _ _ _ => d
  | .select d _ _ _ => d
  | .upload d _ _ _ => d
  | .wait d _ _ _ => d
  | .expect_text d _ _ _ => d
  | .press_key d _ _ => d

/-- The optional `timeout` field common to every step variant. -/
def Step.timeout : Step → Option Int
  | .goto _ t _ => t
  | .click _ t _ => t
  | .type _ t _ _ => t
  | .select _ t _ _ => t
  | .upload _ t _ _ => t
  | .wait _ t _ _ => t
  | .expect_text _ t _ _ => t
  | .press_key _ t _ => t

/-- `stepExecutionResultSchema` from src/schema/results.ts. -/
structure StepExecutionResult where
  stepIndex : Nat
  step : Step
  success : Bool
  url : String
  screenshotPath : String
  visibleText : String
  capture : StepCapture
  evaluation : Option EvaluationResult
deriving DecidableEq, Repr

/-- `bugSeveritySchema = z.enum(['critical', 'major', 'minor'])`. -/
inductive Severity where
  | critical
  | major
  | minor
deriving DecidableEq, Repr

/-- `bugReportSchema` from src/schema/results.ts. -/
structure BugReport where
  stepIndex : Nat
  description : String
  severity : Severity
  evidence : List String
deriving DecidableEq, Repr

/-- `runSummarySchema` from src/schema/results.ts. -/
structure RunSummary where
  runId : String
  url : String
  prompt : String
  summary : Verdict
  startedAt : String
  finishedAt : String
  durationMs : Int
  steps : List StepExecutionResult
  bugs : List BugReport
deriving DecidableEq, Repr

-- ══════════════════════════════════════════════════════════════
-- §2  Deterministic summary decision (src/schema/results.ts 70-82)
-- ══════════════════════════════════════════════════════════════

/-- `step.evaluation?.result === v`: the step carries an evaluation whose
result is `v`. -/
def evalIs (s : StepExecutionResult) (v : Verdict) : Prop :=
  s.evaluation.map EvaluationResult.result = some v

instance (s : StepExecutionResult) (v : Verdict) : Decidable (evalIs s v) := by
  unfold evalIs
  infer_instance

/-- The loop body of `computeSummaryVerdict`, with the `hasUncertain`
accumulator made explicit.  Mirrors:
`for (const step of steps) { if (!step.success) return 'FAIL'; if
(step.evaluation?.result === 'FAIL') return 'FAIL'; if
(step.evaluation?.result === 'UNCERTAIN') hasUncertain = true; }`. -/
def summaryVerdictGo : List StepExecutionResult → Bool → Verdict
  | [], hasUncertain => if hasUncertain then .UNCERTAIN else .PASS
  | s :: rest, hasUncertain =>
    if !s.success then .FAIL
    else if evalIs s .FAIL then .FAIL
    else
      summaryVerdictGo rest (hasUncertain || decide (evalIs s .UNCERTAIN))

/-- `computeSummaryVerdict` from src/schema/results.ts. -/
def computeSummaryVerdict (steps : List StepExecutionResult) : Verdict :=
  summaryVerdictGo steps false

/-- The exit-code mapping at the end of `runAgentLoop`
(src/core/agentLoop.ts 439): `verdict === 'PASS' ? 0 : verdict === 'FAIL' ? 1 : 2`. -/
def verdictExitCode (v : Verdict) : Nat :=
  if v = .PASS then 0 else if v = .FAIL then 1 else 2

-- ══════════════════════════════════════════════════════════════
-- §3  JSON values and the zod validation layer
-- ══════════════════════════════════════════════════════════════

/-- A parsed JSON value (the output of `JSON.parse`).  Objects are
insertion-ordered key/value lists; `JSON.parse` never produces duplicate
keys, which theorems needing uniqueness state as a `Nodup` hypothesis. -/
inductive Json where
  | null
  | bool (b : Bool)
  | num (q : ℚ)
  | str (s : String)
  | arr (elems : List Json)
  | obj (fields : List (String × Json))

/-- JS property read `o[k]` on a JSON object. -/
def getField (fields : List (String × Json)) (k : String) : Option Json :=
  (fields.find? (fun p => p.1 == k)).map Prod.snd

/-- JS property write `o[k] = v`: an existing key keeps its position,
a new key is appended at the end (JS insertion order). -/
def setField : List (String × Json) → String → Json → List (String × Json)
  | [], k, v => [(k, v)]
  | (k', v') :: rest, k, v =>
    if k' = k then (k', v) :: rest else (k', v') :: setField rest k v

/-- JS falsiness of `o[k]` for a JSON value: `undefined` (absent key),
`null`, `false`, `0` and `""` are falsy. -/
def jsFalsy : Option Json → Bool
  | none => true
  | some .null => true
  | some (.bool b) => !b
  | some (.num q) => q == 0
  | some (.str s) => s == ""
  | some (.arr _) => false
  | some (.obj _) => false

-- ── zod field validators ──────────────────────────────────────

/-- `z.string()`. -/
def zString : Json → Option String
  | .str s => some s
  | _ => none

/-- `z.string().min(1)`. -/
def zStringMin1 (j : Json) : Option String :=
  (zString j).bind (fun s => if s = "" then none else some s)

/-- An optional field (`.optional()`): an absent key validates to `none`;
a present value must satisfy the inner validator. -/
def zOptField (fields : List (String × Json)) (k : String)
    (inner : Json → Option α) : Option (Option α) :=
  match getField fields k with
  | none => some none
  | some j => (inner j).map some

/-- `z.number().int().positive()` (used for `timeout`). -/
def zPositiveInt : Json → Option Int
  | .num q => if q.den = 1 ∧ 0 < q.num then some q.num else none
  | _ => none

/-- `selectorStrategySchema.parse`. -/
def zStrategy : Json → Option Strategy
  | .str "testid" => some .testid
  | .str "role" => some .role
  | .str "text" => some .text
  | .str "css" => some .css
  | _ => none

/-- `selectorHintSchema.safeParse` over a parsed JSON value
(src/schema/prescan.ts 37-42): strategy from the enum, non-empty value,
optional role, optional name.  Unknown keys are stripped by zod. -/
def parseSelectorHint : Json → Option SelectorHint
  | .obj fields => do
    let s ← (getField fields "strategy").bind zStrategy
    let v ← (getField fields "value").bind zStringMin1
    let r ← zOptField fields "role" zString
    let n ← zOptField fields "name" zString
    some ⟨s, v, r, n⟩
  | _ => none

/-- `stepSchema.safeParse` over a parsed JSON value: a discriminated union on
the `type` field, each variant with non-empty description and optional
positive integer timeout (src/schema/prescan.ts 63-132). -/
def parseStepJson : Json → Option Step
  | .obj fields => do
    let d ← (getField fields "description").bind zStringMin1
    let t ← zOptField fields "timeout" zPositiveInt
    match getField fields "type" with
    | some (.str "goto") => do
      let v ← (getField fields "value").bind zStringMin1
      some (.goto d t v)
    | some (.str "click") => do
      let sel ← (getField fields "selector").bind parseSelectorHint
      some (.click d t sel)
    | some (.str "type") => do
      let sel ← (getField fields "selector").bind parseSelectorHint
      let v ← (getField fields "value").bind zString
      some (.type d t sel v)
    | some (.str "select") => do
      let sel ← (getField fields "selector").bind parseSelectorHint
      let v ← (getField fields "value").bind zString
      some (.select d t sel v)
    | some (.str "upload") => do
      let sel ← (getField fields "selector").bind parseSelectorHint
      let v ← (getField fields "value").bind zStringMin1
      some (.upload d t sel v)
    | some (.str "wait") => do
      let sel ← zOptField fields "selector" parseSelectorHint
      let v ← zOptField fields "value" zString
      some (.wait d t sel v)
    | some (.str "expect_text") => do
      let sel ← zOptField fields "selector" parseSelectorHint
      let v ← (getField fields "value").bind zStringMin1
      some (.expect_text d t sel v)
    | some (.str "press_key") => do
      let v ← (getField fields "value").bind zStringMin1
      some (.press_key d t v)
    | _ => none
  | _ => none

/-- Element-wise validation of a step array (zod validates each element of
`z.array(stepSchema)` in order; any element failure fails the array). -/
def parseStepElems : List Json → Option (List Step)
  | [] => some []
  | x :: rest => do
    let s ← parseStepJson x
    let others ← parseStepElems rest
    some (s :: others)

/-- `stepListSchema = z.array(stepSchema).min(1)` over a parsed JSON value
(src/schema/prescan.ts 148). -/
def parseStepList : Json → Option (List Step)
  | .arr elems =>
    if elems.isEmpty then none else parseStepElems elems
  | _ => none

-- ══════════════════════════════════════════════════════════════
-- §4  Planner pre-validation repair and validation (src/core/planner.ts)
-- ══════════════════════════════════════════════════════════════

/-- `LIMITS.MAX_STEPS` from src/config (defaults document). -/
def LIMITS_MAX_STEPS : Nat := 12

/-- JS `String(v)` on a parsed JSON value. -/
def jsToString : Json → String
  | .null => "null"
  | .bool b => if b then "true" else "false"
  | .num q => if q.den = 1 then toString q.num else toString q.num ++ "/" ++ toString q.den
  | .str s => s
  | .arr _ => ""
  | .obj _ => "[object Object]"

/-- First match of the regex `/q([^q]+)q/` (with `q` the quote character):
the content of the first non-empty quoted run. -/
def firstQuoted (q : Char) : List Char → Option (List Char)
  | [] => none
  | c :: rest =>
    if c = q then
      let run := rest.takeWhile (· ≠ q)
      match rest.drop run.length with
      | [] => none
      | _ :: _ => if run = [] then firstQuoted q rest else some run
    else firstQuoted q rest

/-- The strategy-rewrite switch of `fixupRawSteps` (planner.ts 62-82),
applied to a selector object whose `strategy` is not one of the four
valid strategies. -/
def rewriteSelector (sel : List (String × Json)) (strat v : String) :
    List (String × Json) :=
  if strat = "placeholder" then
    setField (setField sel "strategy" (.str "css")) "value"
      (.str ("input[placeholder='" ++ v ++ "']"))
  else if strat = "name" then
    setField (setField sel "strategy" (.str "css")) "value"
      (.str ("[name='" ++ v ++ "']"))
  else if strat = "id" then
    setField (setField sel "strategy" (.str "css")) "value" (.str ("#" ++ v))
  else if strat = "label" then
    setField sel "strategy" (.str "text")
  else
    setField (setField sel "strategy" (.str "css")) "value"
      (.str ("[" ++ strat ++ "='" ++ v ++ "']"))

/-- The four valid selector strategies, as strings. -/
def validStrategies : List String := ["testid", "role", "text", "css"]

/-- Fixup 1 of `fixupRawSteps` (planner.ts 48-50): supply a default
description `"{type} step"` when the description is falsy and `type`
is a string. -/
def fixupDescription (fields : List (String × Json)) : List (String × Json) :=
  if jsFalsy (getField fields "description") then
    match getField fields "type" with
    | some (.str t) => setField fields "description" (.str (t ++ " step"))
    | _ => fields
  else fields

/-- Fixup 2 of `fixupRawSteps` (planner.ts 53-85): rewrite an invalid
selector strategy to a valid one. -/
def fixupSelector (fields : List (String × Json)) : List (String × Json) :=
  match getField fields "selector" with
  | some (.obj sel) =>
    match getField sel "strategy", getField sel "value" with
    | some (.str strat), some (.str v) =>
      if strat ∈ validStrategies then fields
      else setField fields "selector" (.obj (rewriteSelector sel strat v))
    | _, _ => fields
  | _ => fields

/-- The value-synthesis body of fixup 3 (planner.ts 89-96): extract a quoted
substring from the description (`/"([^"]+)"/` then `/'([^']+)'/`), else fall
back to the first 50 characters of the description, else `"page content"`. -/
def fixupExpectTextBody (fields : List (String × Json)) : List (String × Json) :=
  let desc :=
    match getField fields "description" with
    | none => ""
    | some .null => ""
    | some v => jsToString v
  match firstQuoted '"' desc.toList with
  | some run => setField fields "value" (.str (String.mk run))
  | none =>
    match firstQuoted '\'' desc.toList with
    | some run => setField fields "value" (.str (String.mk run))
    | none =>
      setField fields "value"
        (.str (if (desc.take 50) = "" then "page content" else desc.take 50))

/-- Fixup 3 of `fixupRawSteps` (planner.ts 88-97): synthesize a missing
`value` on `expect_text` steps from a quoted substring of the description,
or a truncated fallback. -/
def fixupExpectText (fields : List (String × Json)) : List (String × Json) :=
  match getField fields "type" with
  | some (.str t) =>
    if t = "expect_text" ∧ jsFalsy (getField fields "value") = true then
      fixupExpectTextBody fields
    else fields
  | _ => fields

/-- One element of the `fixupRawSteps` walk.  Non-object elements are left
unchanged (the source's `typeof`/null guards skip them without effect). -/
def fixupRawStep : Json → Json
  | .obj fields => .obj (fixupExpectText (fixupSelector (fixupDescription fields)))
  | j => j

/-- `fixupRawSteps` from src/core/planner.ts 40-101: the in-place repairs,
expressed functionally.  Non-array input is returned unchanged. -/
def fixupRawSteps : Json → Json
  | .arr elems => .arr (elems.map fixupRawStep)
  | j => j

/-- The parse-and-validate path of the planner's `tryParse`
(src/core/planner.ts 195-227), starting from the parsed JSON value (the
`extractJSON` + `JSON.parse` stage is the identity on values here: every
accepted plan passes through this function on some parsed value):
repair, schema-validate, then enforce the length and first-step checks. -/
def tryParseSteps (j : Json) : Except String (List Step) :=
  match parseStepList (fixupRawSteps j) with
  | none => .error "Step list failed schema validation"
  | some steps =>
    if steps.length > LIMITS_MAX_STEPS then
      .error ("Too many steps: " ++ toString steps.length)
    else if ¬ steps.head?.map Step.stepType = some .goto then
      .error "First step must be a goto step"
    else .ok steps

/-- One element's raw-value side condition for the idempotent-repair law:
its `selector` field, when it is an object with string `strategy` and
`value`, already uses one of the four valid strategies. -/
def rawStepStrategyOk : Json → Bool
  | .obj fields =>
    match getField fields "selector" with
    | some (.obj sel) =>
      match getField sel "strategy", getField sel "value" with
      | some (.str strat), some (.str _) => strat ∈ validStrategies
      | _, _ => true
    | _ => true
  | _ => true

/-- The raw-value side condition of the idempotent-repair law: every selector
strategy appearing in the parsed value is one of testid/role/text/css. -/
def rawStrategiesValid : Json → Bool
  | .arr elems => elems.all rawStepStrategyOk
  | _ => true

-- ══════════════════════════════════════════════════════════════
-- §5  Evaluator (the evaluator module: evaluateStep / tryParse)
-- ══════════════════════════════════════════════════════════════

/-- `UNCERTAIN_FALLBACK` from the evaluator module. -/
def UNCERTAIN_FALLBACK : EvaluationResult :=
  ⟨.UNCERTAIN, 0, "Evaluator failed to produce a valid response"⟩

/-- The clamp block of the evaluator's `tryParse` (lines 107-117): when the
parsed value is an object with a numeric `confidence`, replace it with
`Math.max(0, Math.min(1, raw))` before schema validation. -/
def clampConfidence : Json → Json
  | .obj fields =>
    match getField fields "confidence" with
    | some (.num c) => .obj (setField fields "confidence" (.num (max 0 (min 1 c))))
    | _ => .obj fields
  | j => j

/-- `evaluationVerdictSchema` over a parsed JSON value. -/
def zVerdict : Json → Option Verdict
  | .str "PASS" => some .PASS
  | .str "FAIL" => some .FAIL
  | .str "UNCERTAIN" => some .UNCERTAIN
  | _ => none

/-- `z.number().min(0).max(1)` (the `confidence` field). -/
def zConfidence : Json → Option ℚ
  | .num q => if 0 ≤ q ∧ q ≤ 1 then some q else none
  | _ => none

/-- `evaluationResultSchema.safeParse` over a parsed JSON value
(src/schema/results.ts 12-16): verdict enum, confidence in [0,1],
non-empty reason. -/
def parseEvaluationResultJson : Json → Option EvaluationResult
  | .obj fields => do
    let v ← (getField fields "result").bind zVerdict
    let c ← (getField fields "confidence").bind zConfidence
    let r ← (getField fields "reason").bind zStringMin1
    some ⟨v, c, r⟩
  | _ => none

/-- The evaluator's `tryParse` (lines 96-125), starting from the outcome of
`extractJSON` + `JSON.parse`: `none` stands for raw text with no parseable
JSON; otherwise clamp the confidence, then schema-validate. -/
def tryParseEvaluation : Option Json → Except String EvaluationResult
  | none => .error "Invalid JSON"
  | some j =>
    match parseEvaluationResultJson (clampConfidence j) with
    | some e => .ok e
    | none => .error "schema validation failed"

/-- `evaluateStep` (lines 31-49), with the two LLM responses (first attempt
and repair attempt) supplied as already-parsed oracles: first attempt, one
repair attempt, then the UNCERTAIN fallback — never a propagated error. -/
def evaluateStep (first second : Option Json) : EvaluationResult :=
  match tryParseEvaluation first with
  | .ok e => e
  | .error _ =>
    match tryParseEvaluation second with
    | .ok e => e
    | .error _ => UNCERTAIN_FALLBACK

-- ══════════════════════════════════════════════════════════════
-- §6  Selector resolver (resolveSelector / resolveRole)
-- ══════════════════════════════════════════════════════════════

/-- `SelectorError` from the selector module: strategy, offending hint,
reason (the message string is assembled from these). -/
structure SelectorError where
  strategy : Strategy
  hint : SelectorHint
  reason : String
deriving DecidableEq, Repr

/-- The driver locator produced by `resolveSelector`: which Playwright
lookup is performed, with which arguments. -/
inductive LocatorSpec where
  | byTestId (value : String)
  | byRole (role : String) (name : Option String)
  | byText (value : String)
  | byCss (value : String)
deriving DecidableEq, Repr

/-- `resolveRole` (selector module lines 49-66): throws a `SelectorError`
when `hint.role` is falsy (absent or empty); the `name` filter is applied
only when `hint.name` is truthy (`if (hint.name)`). -/
def resolveRole (hint : SelectorHint) : Except SelectorError LocatorSpec :=
  match hint.role with
  | none =>
    .error ⟨.role, hint, "missing required role field (e.g. button, link, textbox)"⟩
  | some r =>
    if r = "" then
      .error ⟨.role, hint, "missing required role field (e.g. button, link, textbox)"⟩
    else
      .ok (.byRole r (match hint.name with
        | some n => if n = "" then none else some n
        | none => none))

/-- `resolveSelector` (selector module lines 33-47): strategy dispatch with
no automatic fallback. -/
def resolveSelector (hint : SelectorHint) : Except SelectorError LocatorSpec :=
  match hint.strategy with
  | .testid => .ok (.byTestId hint.value)
  | .role => resolveRole hint
  | .text => .ok (.byText hint.value)
  | .css => .ok (.byCss hint.value)

-- ══════════════════════════════════════════════════════════════
-- §7  Runner (src/browser/runner.ts)
-- ══════════════════════════════════════════════════════════════

/-- `TIMEOUTS.NAVIGATION_TIMEOUT` (defaults document). -/
def NAVIGATION_TIMEOUT : Int := 15000

/-- `TIMEOUTS.ACTION_TIMEOUT` (defaults document). -/
def ACTION_TIMEOUT : Int := 8000

/-- `TIMEOUTS.RETRY_WAIT` (defaults document). -/
def RETRY_WAIT : Int := 2000

/-- `TIMEOUTS.TOTAL_RUN_TIMEOUT` (defaults document). -/
def TOTAL_RUN_TIMEOUT : Int := 180000

/-- The browser interaction dispatched by one `performAction` case
(runner.ts 96-161): which driver primitive is invoked, with which
selector, value and effective timeout. -/
inductive BrowserAction where
  | nav (url : String) (timeout : Int)
  | clickOn (selector : SelectorHint) (timeout : Int)
  | fill (selector : SelectorHint) (value : String) (timeout : Int)
  | selectOption (selector : SelectorHint) (value : String) (timeout : Int)
  | setInputFiles (selector : SelectorHint) (value : String) (timeout : Int)
  | waitAction (selector : Option SelectorHint) (value : Option String) (timeout : Int)
  | expectTextCheck (selector : Option SelectorHint) (value : String) (timeout : Int)
deriving DecidableEq, Repr

/-- `performAction` (runner.ts 96-161): the `switch (step.type)` dispatch.
The switch has cases for goto, click, type, select, upload, wait and
expect_text only — a `press_key` step falls through the switch and
dispatches no browser interaction at all (`none`). -/
def performAction : Step → Option BrowserAction
  | .goto _ t v => some (.nav v (t.getD NAVIGATION_TIMEOUT))
  | .click _ t sel => some (.clickOn sel (t.getD ACTION_TIMEOUT))
  | .type _ t sel v => some (.fill sel v (t.getD ACTION_TIMEOUT))
  | .select _ t sel v => some (.selectOption sel v (t.getD ACTION_TIMEOUT))
  | .upload _ t sel v => some (.setInputFiles sel v (t.getD ACTION_TIMEOUT))
  | .wait _ t sel v => some (.waitAction sel v (t.getD ACTION_TIMEOUT))
  | .expect_text _ t sel v => some (.expectTextCheck sel v (t.getD ACTION_TIMEOUT))
  | .press_key _ _ _ => none

/-- The page state read back by `executeStep` after the action: current URL,
visible text (already truncated by `extractVisibleText`), and the capture
frame returned by the closing `flush()`. -/
structure PageView where
  url : String
  visibleText : String
  capture : StepCapture
deriving DecidableEq, Repr

/-- `executeStep` (runner.ts 53-86), with the driver modelled as an oracle
`throws` telling which dispatched interaction raises: `success = false`
iff the dispatched action threw; a step dispatching no action (press_key)
cannot throw.  Screenshot and text read-back are best-effort and never
affect `success`. -/
def executeStep (throws : BrowserAction → Bool) (page : PageView)
    (screenshotDir : String) (step : Step) (stepIndex : Nat) :
    StepExecutionResult :=
  let success :=
    match performAction step with
    | none => true
    | some a => !(throws a)
  { stepIndex := stepIndex
    step := step
    success := success
    url := page.url
    screenshotPath := screenshotDir ++ "/step-" ++ toString stepIndex ++ ".png"
    visibleText := page.visibleText
    capture := page.capture
    evaluation := none }

-- ══════════════════════════════════════════════════════════════
-- §8  Retry classification and the plan-once loop (src/core/agentLoop.ts)
-- ══════════════════════════════════════════════════════════════

/-- The `FailureKind` union of src/core/agentLoop.ts 43. -/
inductive FailureKind where
  | element_not_found
  | action_no_effect
  | hard_fail
  | none
deriving DecidableEq, Repr

/-- `['POST', 'PUT', 'DELETE'].includes(f.method.toUpperCase())`. -/
def isMutatingMethod (m : String) : Bool :=
  m.toUpper ∈ (["POST", "PUT", "DELETE"] : List String)

/-- The 5xx-on-mutating-request test of `classifyFailure`
(agentLoop.ts 53-57). -/
def hasServerError (c : StepCapture) : Bool :=
  c.networkFailures.any (fun f => decide (f.status ≥ 500) && isMutatingMethod f.method)

/-- `classifyFailure` from src/core/agentLoop.ts 45-81. -/
def classifyFailure (result : StepExecutionResult) (prevVisibleText : String) :
    FailureKind :=
  if !result.success then
    if result.capture.pageErrors.length > 0 || hasServerError result.capture then
      .hard_fail
    else
      .element_not_found
  else if result.capture.pageErrors.length > 0 then
    .hard_fail
  else if result.step.stepType ≠ .goto ∧ result.step.stepType ≠ .wait ∧
      result.step.stepType ≠ .expect_text ∧
      result.visibleText = prevVisibleText then
    .action_no_effect
  else
    .none

/-- The synthetic failed result built when `executeStep` crashes
(agentLoop.ts 331-343): success false, empty visible text, a single
page error carrying the crash message. -/
def crashResult (stepIndex : Nat) (step : Step) (msg url shotPath : String) :
    StepExecutionResult :=
  { stepIndex := stepIndex
    step := step
    success := false
    url := url
    screenshotPath := shotPath
    visibleText := ""
    capture :=
      { consoleEntries := []
        networkFailures := []
        pageErrors := [⟨"executeStep crashed: " ++ msg⟩] }
    evaluation := none }

/-- The effectful surroundings of one loop iteration, as oracles indexed by
the step index `i`: what `executeStep` returns (or the crash message it
throws), what the single retry returns (`none` = the retry also crashed,
keeping the original result), what the evaluator returns (`none` = the
evaluator threw, recording the step without evaluation), and the three
clock comparisons of the iteration. -/
structure LoopEnv where
  execFirst : Nat → Except String StepExecutionResult
  execRetry : Nat → Option StepExecutionResult
  evalStep : Nat → Option EvaluationResult
  timeExpired : Nat → Bool
  retryFits : Nat → Bool
  evalInTime : Nat → Bool
  crashUrl : Nat → String
  crashShot : Nat → String

/-- What one iteration of the plan-once loop body (agentLoop.ts 311-411)
records and decides, including the two `classifyFailure` invocations with
the exact `prevVisibleText` argument each receives. -/
structure IterTrace where
  recorded : StepExecutionResult
  continu : Bool
  prevOut : String
  preClassify : Option (String × FailureKind)
  postClassify : Option (String × FailureKind)
deriving DecidableEq, Repr

/-- One iteration of the plan-once loop body (agentLoop.ts 311-411):
execute (or synthesize a crash result and continue without updating
`prevVisibleText`); classify with the previous step's visible text; retry
once on `element_not_found` (when the retry fits the deadline) or
`action_no_effect`; evaluate when within the deadline; then record, update
`prevVisibleText := result.visibleText` (line 402), and decide the early
break `!result.success || classifyFailure(result, prevVisibleText) ===
'hard_fail'` (line 406) — with `prevVisibleText` already updated. -/
def loopIter (env : LoopEnv) (i : Nat) (step : Step) (prev : String) : IterTrace :=
  match env.execFirst i with
  | .error msg =>
    { recorded := crashResult i step msg (env.crashUrl i) (env.crashShot i)
      continu := true
      prevOut := prev
      preClassify := none
      postClassify := none }
  | .ok r0 =>
    let fk := classifyFailure r0 prev
    let r1 :=
      if fk = .element_not_found ∧ env.retryFits i = true then
        (env.execRetry i).getD r0
      else if fk = .action_no_effect then
        (env.execRetry i).getD r0
      else r0
    let r2 :=
      if env.evalInTime i then
        match env.evalStep i with
        | some e => { r1 with evaluation := some e }
        | Option.none => r1
      else r1
    let prevNew := r2.visibleText
    let postFk := classifyFailure r2 prevNew
    { recorded := r2
      continu := r2.success && !(postFk = .hard_fail)
      prevOut := prevNew
      preClassify := some (prev, fk)
      postClassify := some (prevNew, postFk) }

/-- The plan-once execution loop (agentLoop.ts 305-412) over the planned
steps, threading the step index and `prevVisibleText`, stopping at the
deadline check at the loop head or at the early break of an iteration. -/
def runLoopAux (env : LoopEnv) : List Step → Nat → String → List StepExecutionResult
  | [], _, _ => []
  | step :: rest, i, prev =>
    if env.timeExpired i then []
    else
      let t := loopIter env i step prev
      if t.continu then t.recorded :: runLoopAux env rest (i + 1) t.prevOut
      else [t.recorded]

/-- The plan-once loop from the first step, starting with
`prevVisibleText = snapshot.visibleText` (agentLoop.ts 303). -/
def runLoop (env : LoopEnv) (steps : List Step) (initialVisibleText : String) :
    List StepExecutionResult :=
  runLoopAux env steps 0 initialVisibleText

-- ══════════════════════════════════════════════════════════════
-- §9  Report contract (the reporter module: generateJSON / serializeJSON)
-- ══════════════════════════════════════════════════════════════

/-- `JSON_OUTPUT_VERSION = '1.0'` (src/schema, jsonOutput document). -/
def JSON_OUTPUT_VERSION : String := "1.0"

/-- The literal string of a verdict. -/
def verdictString : Verdict → String
  | .PASS => "PASS"
  | .FAIL => "FAIL"
  | .UNCERTAIN => "UNCERTAIN"

/-- The literal string of a step type. -/
def stepTypeString : StepType → String
  | .goto => "goto"
  | .click => "click"
  | .type => "type"
  | .select => "select"
  | .upload => "upload"
  | .wait => "wait"
  | .expect_text => "expect_text"
  | .press_key => "press_key"

/-- The literal string of a bug severity. -/
def severityString : Severity → String
  | .critical => "critical"
  | .major => "major"
  | .minor => "minor"

/-- `collectErrors` from the reporter module (lines 184-200). -/
def collectErrors (sr : StepExecutionResult) : List String :=
  ((sr.capture.consoleEntries.filter (fun e => e.level = .error)).map
      (fun e => "console: " ++ e.text))
  ++ (sr.capture.networkFailures.map
      (fun f => "network: " ++ f.method ++ " " ++ f.url ++ " " ++ toString f.status))
  ++ (sr.capture.pageErrors.map (fun p => "page: " ++ p.message))

/-- `stepToJSON` from the reporter module (lines 37-48). -/
def stepToJSON (sr : StepExecutionResult) : Json :=
  .obj
    [("index", .num (sr.stepIndex : ℚ)),
     ("type", .str (stepTypeString sr.step.stepType)),
     ("description", .str sr.step.description),
     ("result", .str (verdictString (match sr.evaluation with
       | some e => e.result
       | none => if sr.success then .PASS else .FAIL))),
     ("confidence", .num (match sr.evaluation with
       | some e => e.confidence
       | none => 0)),
     ("reason", .str (match sr.evaluation with
       | some e => e.reason
       | none => if sr.success then "" else "Step execution failed")),
     ("screenshotPath", .str sr.screenshotPath),
     ("errors", .arr ((collectErrors sr).map Json.str))]

/-- `bugToJSON` from the reporter module (lines 50-57). -/
def bugToJSON (bug : BugReport) : Json :=
  .obj
    [("stepIndex", .num (bug.stepIndex : ℚ)),
     ("description", .str bug.description),
     ("severity", .str (severityString bug.severity)),
     ("evidence", .arr (bug.evidence.map Json.str))]

/-- `generateJSON` from the reporter module (lines 20-35): the versioned
report record, with fields in the source's insertion order. -/
def generateJSON (run : RunSummary) (exitCode : Int) : Json :=
  .obj
    [("version", .str JSON_OUTPUT_VERSION),
     ("summary", .str (verdictString run.summary)),
     ("runId", .str run.runId),
     ("url", .str run.url),
     ("prompt", .str run.prompt),
     ("durationMs", .num (run.durationMs : ℚ)),
     ("exitCode", .num (exitCode : ℚ)),
     ("steps", .arr (run.steps.map stepToJSON)),
     ("bugs", .arr (run.bugs.map bugToJSON))]

-- ── Deterministic serialization ───────────────────────────────

/-- `sortedReplacer` (reporter lines 66-75) on one object's field list:
`Object.keys(value).sort()` — keys sorted lexicographically, each keeping
its value.  JS object keys are unique, so the sort has no ties. -/
def sortKeys (l : List (String × Json)) : List (String × Json) :=
  l.mergeSort (fun a b => a.1 ≤ b.1)

mutual

/-- `JSON.stringify(output, sortedReplacer, 2)` passes every object it
visits through `sortedReplacer`; `deepSort` is that traversal's total
effect: every object's fields sorted by key, at every nesting level. -/
def deepSort : Json → Json
  | .null => .null
  | .bool b => .bool b
  | .num q => .num q
  | .str s => .str s
  | .arr xs => .arr (deepSortList xs)
  | .obj l => .obj (sortKeys (deepSortFields l))

def deepSortList : List Json → List Json
  | [] => []
  | x :: rest => deepSort x :: deepSortList rest

def deepSortFields : List (String × Json) → List (String × Json)
  | [] => []
  | (k, v) :: rest => (k, deepSort v) :: deepSortFields rest

end

/-- A hexadecimal digit (lower case, as `JSON.stringify` emits). -/
def hexDigit (n : Nat) : Char :=
  if n < 10 then Char.ofNat (48 + n) else Char.ofNat (87 + n)

/-- Four hexadecimal digits, for `\u00XX` escapes. -/
def hex4 (n : Nat) : String :=
  String.mk [hexDigit (n / 4096 % 16), hexDigit (n / 256 % 16),
    hexDigit (n / 16 % 16), hexDigit (n % 16)]

/-- The JSON escape of one character, as `JSON.stringify` emits it. -/
def escapeChar (c : Char) : String :=
  if c = '"' then "\\\""
  else if c = '\\' then "\\\\"
  else if c = '\n' then "\\n"
  else if c = '\r' then "\\r"
  else if c = '\t' then "\\t"
  else if c = Char.ofNat 8 then "\\b"
  else if c = Char.ofNat 12 then "\\f"
  else if c.toNat < 32 then "\\u" ++ hex4 c.toNat
  else String.singleton c

/-- A JSON string literal. -/
def jsonQuote (s : String) : String :=
  "\"" ++ String.join (s.toList.map escapeChar) ++ "\""

/-- Decimal digits of the fraction `n / d` (with `n < d`), fuel-bounded. -/
def decimalFrac : Nat → Nat → Nat → String
  | 0, _, _ => ""
  | _, 0, _ => ""
  | fuel + 1, n, d =>
    let n10 := n * 10
    toString (n10 / d) ++ decimalFrac fuel (n10 % d) d

/-- The decimal rendering of a JSON number.  JS numbers are modelled as
rationals; integers print as integers, fractions as (fuel-bounded)
decimal expansions. -/
def qToString (q : ℚ) : String :=
  if q.den = 1 then toString q.num
  else
    (if q < 0 then "-" else "")
      ++ toString (q.num.natAbs / q.den) ++ "."
      ++ decimalFrac 17 (q.num.natAbs % q.den) q.den

/-- Two-space indentation at a nesting depth (`JSON.stringify(…, …, 2)`). -/
def indentStr (depth : Nat) : String :=
  String.join (List.replicate depth "  ")

mutual

/-- The plain pretty-printer underlying `JSON.stringify(…, …, 2)`:
two-space indentation, multi-line layout, fields in the order given. -/
def rawStringify : Json → Nat → String
  | .null, _ => "null"
  | .bool b, _ => if b then "true" else "false"
  | .num q, _ => qToString q
  | .str s, _ => jsonQuote s
  | .arr [], _ => "[]"
  | .arr (x :: xs), d =>
    "[\n" ++ String.intercalate ",\n" (rawStringifyItems (x :: xs) (d + 1))
      ++ "\n" ++ indentStr d ++ "]"
  | .obj [], _ => "\x7b\x7d"
  | .obj (f :: fs), d =>
    "\x7b\n" ++ String.intercalate ",\n" (rawStringifyFields (f :: fs) (d + 1))
      ++ "\n" ++ indentStr d ++ "\x7d"

def rawStringifyItems : List Json → Nat → List String
  | [], _ => []
  | x :: rest, d => (indentStr d ++ rawStringify x d) :: rawStringifyItems rest d

def rawStringifyFields : List (String × Json) → Nat → List String
  | [], _ => []
  | (k, v) :: rest, d =>
    (indentStr d ++ jsonQuote k ++ ": " ++ rawStringify v d)
      :: rawStringifyFields rest d

end

/-- `serializeJSON` from the reporter module (lines 62-75):
`JSON.stringify(output, sortedReplacer, 2)`.  The replacer hands the
traversal a key-sorted copy of every object it visits, so the emitted
bytes are the plain two-space pretty-print of the deep key-sorted value. -/
def serializeJSON (output : Json) : String :=
  rawStringify (deepSort output) 0

-- ══════════════════════════════════════════════════════════════
-- §10  Concrete fixtures for counterexamples and witnesses
-- ══════════════════════════════════════════════════════════════

/-- An empty capture frame. -/
def emptyCapture : StepCapture := ⟨[], [], []⟩

/-- A sample click step. -/
def sampleClickStep : Step :=
  .click "click the submit button" none ⟨.css, "#submit", none, none⟩

/-- A sample goto step. -/
def sampleGotoStep : Step := .goto "open the page" none "http://example.test/"

/-- A sample expect_text step. -/
def sampleExpectStep : Step := .expect_text "check the heading" none none "Welcome"

/-- A failed step result with an empty capture: `classifyFailure` classifies
it `element_not_found`, not `hard_fail`. -/
def failedEmptyResult : StepExecutionResult :=
  { stepIndex := 0
    step := sampleClickStep
    success := false
    url := "http://example.test/"
    screenshotPath := "shots/step-0.png"
    visibleText := "page"
    capture := emptyCapture
    evaluation := none }

/-- A loop environment in which `executeStep` always returns
`failedEmptyResult`, nothing retries or evaluates, and the deadline never
expires. -/
def failedStepEnv : LoopEnv :=
  { execFirst := fun _ => .ok failedEmptyResult
    execRetry := fun _ => none
    evalStep := fun _ => none
    timeExpired := fun _ => false
    retryFits := fun _ => false
    evalInTime := fun _ => false
    crashUrl := fun _ => "http://example.test/"
    crashShot := fun _ => "shots/crash.png" }

/-- A two-step plan. -/
def twoStepPlan : List Step := [sampleClickStep, sampleExpectStep]

/-- A successful click result whose visible text is `"b"`. -/
def successResultB : StepExecutionResult :=
  { stepIndex := 0
    step := sampleClickStep
    success := true
    url := "http://example.test/"
    screenshotPath := "shots/step-0.png"
    visibleText := "b"
    capture := emptyCapture
    evaluation := none }

/-- A loop environment in which `executeStep` always returns
`successResultB` and nothing retries or evaluates. -/
def successStepEnv : LoopEnv :=
  { execFirst := fun _ => .ok successResultB
    execRetry := fun _ => none
    evalStep := fun _ => none
    timeExpired := fun _ => false
    retryFits := fun _ => false
    evalInTime := fun _ => false
    crashUrl := fun _ => "http://example.test/"
    crashShot := fun _ => "shots/crash.png" }

/-- A loop environment in which `executeStep` always crashes. -/
def crashingEnv : LoopEnv :=
  { execFirst := fun _ => .error "page closed"
    execRetry := fun _ => none
    evalStep := fun _ => none
    timeExpired := fun _ => false
    retryFits := fun _ => false
    evalInTime := fun _ => false
    crashUrl := fun _ => "http://example.test/"
    crashShot := fun _ => "shots/crash.png" }

/-- A loop environment whose deadline has already expired at the first
loop-head check. -/
def expiredEnv : LoopEnv :=
  { execFirst := fun _ => .error "unreachable"
    execRetry := fun _ => none
    evalStep := fun _ => none
    timeExpired := fun _ => true
    retryFits := fun _ => false
    evalInTime := fun _ => false
    crashUrl := fun _ => ""
    crashShot := fun _ => "" }

/-- A selector-hint JSON object using the role strategy with no `role` key. -/
def roleHintJson : Json := .obj [("strategy", .str "role"), ("value", .str "submit")]

/-- A one-step plan JSON accepted by the planner's validation path. -/
def singleGotoPlanJson : Json :=
  .arr [.obj [("type", .str "goto"),
              ("description", .str "open the page"),
              ("value", .str "http://example.test/")]]

/-- A sample run summary with no steps and no bugs. -/
def sampleRun : RunSummary :=
  { runId := "run-1"
    url := "http://example.test/"
    prompt := "check the title"
    summary := .PASS
    startedAt := "2026-01-01T00:00:00.000Z"
    finishedAt := "2026-01-01T00:00:10.000Z"
    durationMs := 10000
    steps := []
    bugs := [] }

-- ══════════════════════════════════════════════════════════════
-- §11  Helper lemmas
-- ══════════════════════════════════════════════════════════════

/-- Whether `classifyFailure` answers `hard_fail` does not depend on the
`prevVisibleText` argument: the hard-fail branches test only the result's
success flag and capture frame. -/
theorem classifyFailure_hard_fail_indep (r : StepExecutionResult) (p q : String) :
    classifyFailure r p = .hard_fail ↔ classifyFailure r q = .hard_fail := by
  unfold classifyFailure
  split_ifs <;> simp_all

-- ══════════════════════════════════════════════════════════════
-- §12  Claim theorems
-- ══════════════════════════════════════════════════════════════

/-- C10: `computeSummaryVerdict` of the empty list is PASS, and the exit-code
mapping sends PASS to 0; in particular a run whose deadline expires before
the first step (so the loop records zero results) is summarized PASS with
exit code 0. -/
theorem empty_run_reports_pass :
    computeSummaryVerdict [] = .PASS
    ∧ verdictExitCode (computeSummaryVerdict []) = 0
    ∧ runLoop expiredEnv [sampleGotoStep] "init" = []
    ∧ verdictExitCode (computeSummaryVerdict (runLoop expiredEnv [sampleGotoStep] "init")) = 0 := by
  refine ⟨rfl, rfl, rfl, rfl⟩

/-- C2 counterexample: a normally-returned failed step whose classification
is `element_not_found` (not `hard_fail`) stops the plan-once loop: with two
planned steps, no deadline pressure and no crash, the loop records only the
first (failed) result and does not reach the second step. -/
theorem nonhard_failed_step_stops_loop :
    runLoop failedStepEnv twoStepPlan "init" = [failedEmptyResult]
    ∧ twoStepPlan.length = 2
    ∧ failedStepEnv.timeExpired 0 = false
    ∧ failedStepEnv.timeExpired 1 = false
    ∧ classifyFailure failedEmptyResult failedEmptyResult.visibleText = .element_not_found
    ∧ classifyFailure failedEmptyResult failedEmptyResult.visibleText ≠ .hard_fail := by
  refine ⟨rfl, rfl, rfl, rfl, rfl, by decide⟩

/-- C2 (amended): after a step result is recorded by the plan-once loop, the
loop continues iff the result came from the crash path (which always
continues), or the normally-returned result has `success = true` and its
post-evaluation re-classification is not `hard_fail`; equivalently, a
normally-returned result stops the loop iff `success = false` or it is
re-classified `hard_fail`.  The last conjunct links one loop iteration to
`runLoopAux`. -/
theorem loop_stop_characterization (env : LoopEnv) (i : Nat) (step : Step) (prev : String) :
    ((env.execFirst i).isOk = false → (loopIter env i step prev).continu = true)
    ∧ ((loopIter env i step prev).continu = false ↔
        (env.execFirst i).isOk = true
        ∧ ((loopIter env i step prev).recorded.success = false
            ∨ classifyFailure (loopIter env i step prev).recorded
                (loopIter env i step prev).recorded.visibleText = .hard_fail))
    ∧ (∀ rest, env.timeExpired i = false →
        runLoopAux env (step :: rest) i prev =
          (if (loopIter env i step prev).continu then
            (loopIter env i step prev).recorded
              :: runLoopAux env rest (i + 1) (loopIter env i step prev).prevOut
          else [(loopIter env i step prev).recorded])) := by
  refine ⟨?_, ?_, ?_⟩
  · intro h
    cases hx : env.execFirst i with
    | error msg => simp [loopIter, hx]
    | ok r0 => rw [hx] at h; simp [Except.isOk, Except.toBool] at h
  · cases hx : env.execFirst i with
    | error msg => simp [loopIter, hx, Except.isOk, Except.toBool]
    | ok r0 =>
      simp only [loopIter, hx, Except.isOk, Except.toBool, true_and]
      constructor
      · intro h
        rcases Bool.and_eq_false_iff.mp h with h' | h'
        · exact Or.inl (by simpa using h')
        · exact Or.inr (by simpa using h')
      · intro h
        rcases h with h' | h'
        · simp [h']
        · simp [h']
  · intro rest ht
    simp [runLoopAux, ht]

/-- C2 witness: a crashing `executeStep` (synthesized failed result) does not
stop the loop. -/
theorem loop_stop_characterization_witness :
    (loopIter crashingEnv 0 sampleClickStep "init").continu = true :=
  (loop_stop_characterization crashingEnv 0 sampleClickStep "init").1 (by decide)

/-- C8 counterexample: the post-evaluation re-classification at the early
break is invoked with a `prevVisibleText` that differs from the one used by
the pre-retry classification: here the pre-retry call receives `"a"` (the
previous step's visible text) while the post-evaluation call receives `"b"`
(the current result's visible text, assigned at line 402 before the line 406
check) — and consequently even classifies differently (`none` vs
`action_no_effect`). -/
theorem postClassify_prev_counterexample :
    (loopIter successStepEnv 0 sampleClickStep "a").preClassify = some ("a", .none)
    ∧ (loopIter successStepEnv 0 sampleClickStep "a").postClassify = some ("b", .action_no_effect)
    ∧ ("b" : String) ≠ "a" := by
  refine ⟨rfl, rfl, by decide⟩

/-- C8 (amended): the post-evaluation re-classification (line 406) is invoked
with `prevVisibleText` already updated to the recorded result's own
`visibleText` (line 402), not with the value used for the pre-retry
classification; since the `hard_fail` answer of `classifyFailure` does not
depend on that argument, the early-break decision is nevertheless the same
as it would be with the not-yet-updated value. -/
theorem postClassify_uses_updated_prev (env : LoopEnv) (i : Nat) (step : Step) (prev : String) :
    (∀ r0, env.execFirst i = .ok r0 →
      (loopIter env i step prev).postClassify =
        some ((loopIter env i step prev).recorded.visibleText,
          classifyFailure (loopIter env i step prev).recorded
            (loopIter env i step prev).recorded.visibleText))
    ∧ (∀ (r : StepExecutionResult) (p q : String),
        classifyFailure r p = .hard_fail ↔ classifyFailure r q = .hard_fail)
    ∧ (∀ (r : StepExecutionResult) (p : String),
        (r.success = false ∨ classifyFailure r p = .hard_fail) ↔
          (r.success = false ∨ classifyFailure r r.visibleText = .hard_fail)) := by
  refine ⟨?_, classifyFailure_hard_fail_indep, ?_⟩
  · intro r0 hx
    simp [loopIter, hx]
  · intro r p
    exact or_congr Iff.rfl (classifyFailure_hard_fail_indep r p r.visibleText)

/-- C8 witness: the amended characterization at a concrete iteration. -/
theorem postClassify_uses_updated_prev_witness :
    (loopIter successStepEnv 0 sampleClickStep "a").postClassify =
      some ((loopIter successStepEnv 0 sampleClickStep "a").recorded.visibleText,
        classifyFailure (loopIter successStepEnv 0 sampleClickStep "a").recorded
          (loopIter successStepEnv 0 sampleClickStep "a").recorded.visibleText) :=
  (postClassify_uses_updated_prev successStepEnv 0 sampleClickStep "a").1
    successResultB rfl

/-- C6 counterexample: a selector hint with `strategy = role` and no `role`
key passes `selectorHintSchema` validation — the parsed hint has
`role = none`, so the role-requires-role invariant does not hold at the
validation boundary. -/
theorem roleHint_without_role_validates :
    parseSelectorHint roleHintJson =
      some ⟨.role, "submit", Option.none, Option.none⟩
    ∧ (⟨Strategy.role, "submit", Option.none, Option.none⟩ : SelectorHint).role
        = Option.none := by
  refine ⟨rfl, rfl⟩

/-- C6 (amended): `selectorHintSchema` keeps `role` optional even for
role-strategy hints — such a hint validates with `role = none` — and the
invariant is enforced later, at resolution time: `resolveSelector` on a
role-strategy hint succeeds iff the hint carries a non-empty `role`
(`resolveRole` throws a `SelectorError` otherwise). -/
theorem role_requirement_at_resolution :
    (∀ v : String, v ≠ "" →
      parseSelectorHint (Json.obj [("strategy", .str "role"), ("value", .str v)]) =
        some ⟨.role, v, Option.none, Option.none⟩)
    ∧ (∀ h : SelectorHint, h.strategy = .role →
        ((resolveSelector h).isOk = true ↔ ∃ r, h.role = some r ∧ r ≠ "")) := by
  constructor
  · intro v hv
    simp [parseSelectorHint, getField, zStrategy, zStringMin1, zString, zOptField,
      List.find?, hv]
  · intro h hs
    simp only [resolveSelector, hs]
    unfold resolveRole
    cases hr : h.role with
    | none => simp [Except.isOk, Except.toBool]
    | some r =>
      by_cases hre : r = "" <;> simp [hre, Except.isOk, Except.toBool]

/-- C6 witness: the amended statement at concrete inputs. -/
theorem role_requirement_at_resolution_witness :
    parseSelectorHint (Json.obj [("strategy", .str "role"), ("value", .str "button")]) =
      some ⟨.role, "button", Option.none, Option.none⟩ :=
  role_requirement_at_resolution.1 "button" (by decide)

/-- C9: `press_key` steps are accepted by the step schema, but
`performAction`'s switch has no `press_key` case, so executing one
dispatches no browser interaction and the returned result always has
`success = true` — a silent no-op. -/
theorem press_key_silent_noop :
    (∀ d v : String, d ≠ "" → v ≠ "" →
      parseStepJson (Json.obj [("type", .str "press_key"),
          ("description", .str d), ("value", .str v)]) =
        some (.press_key d Option.none v))
    ∧ (∀ st : Step, st.stepType = .press_key → performAction st = Option.none)
    ∧ (∀ (throws : BrowserAction → Bool) (page : PageView) (dir : String)
        (st : Step) (i : Nat), st.stepType = .press_key →
        (executeStep throws page dir st i).success = true) := by
  refine ⟨?_, ?_, ?_⟩
  · intro d v hd hv
    simp [parseStepJson, getField, zOptField, zStringMin1, zString, List.find?, hd, hv]
  · intro st h
    cases st <;> simp_all [Step.stepType, performAction]
  · intro throws page dir st i h
    have hp : performAction st = Option.none := by
      cases st <;> simp_all [Step.stepType, performAction]
    simp [executeStep, hp]

/-- C9 witness: a concrete press_key step is schema-accepted and executes as
a success without any dispatched action. -/
theorem press_key_silent_noop_witness :
    parseStepJson (Json.obj [("type", .str "press_key"),
        ("description", .str "press Enter"), ("value", .str "Enter")]) =
      some (.press_key "press Enter" Option.none "Enter") :=
  press_key_silent_noop.1 "press Enter" "Enter" (by decide) (by decide)

/-- C3: every plan accepted by the planner's parse-and-validate path is
exactly the schema-validated list, is non-empty, has at most
`MAX_STEPS = 12` steps, and starts with a `goto` step; the contrapositive —
any schema-validated list violating length or first-step constraints makes
`tryParse` return an error — is immediate from the first conjunct and
functionality. -/
theorem accepted_plan_invariants (j : Json) (P : List Step)
    (h : tryParseSteps j = .ok P) :
    parseStepList (fixupRawSteps j) = some P
    ∧ 1 ≤ P.length
    ∧ P.length ≤ LIMITS_MAX_STEPS
    ∧ LIMITS_MAX_STEPS = 12
    ∧ P.head?.map Step.stepType = some .goto := by
  unfold tryParseSteps at h
  cases hp : parseStepList (fixupRawSteps j) with
  | none => rw [hp] at h; exact absurd h (by simp)
  | some steps =>
    rw [hp] at h
    dsimp only at h
    by_cases h1 : steps.length > LIMITS_MAX_STEPS
    · rw [if_pos h1] at h
      exact absurd h (by simp)
    · rw [if_neg h1] at h
      by_cases h2 : steps.head?.map Step.stepType = some .goto
      · rw [if_neg (not_not_intro h2)] at h
        have hP : steps = P := by simpa using h
        subst hP
        have hle : steps.length ≤ LIMITS_MAX_STEPS := Nat.le_of_not_lt h1
        refine ⟨rfl, ?_, hle, rfl, h2⟩
        cases steps with
        | nil => simp at h2
        | cons a rest => simp
      · rw [if_pos h2] at h
        exact absurd h (by simp)

/-- C3 witness: a concrete single-goto plan is accepted and satisfies the
invariants. -/
theorem accepted_plan_invariants_witness :
    parseStepList (fixupRawSteps singleGotoPlanJson) =
      some [Step.goto "open the page" Option.none "http://example.test/"] :=
  (accepted_plan_invariants singleGotoPlanJson
    [Step.goto "open the page" Option.none "http://example.test/"] rfl).1

/-- `summaryVerdictGo` answers FAIL iff some step failed or was evaluated
FAIL, regardless of the accumulator. -/
theorem summaryVerdictGo_eq_FAIL (steps : List StepExecutionResult) (b : Bool) :
    summaryVerdictGo steps b = .FAIL ↔
      ∃ s ∈ steps, s.success = false ∨ evalIs s .FAIL := by
  induction steps generalizing b with
  | nil => cases b <;> simp [summaryVerdictGo]
  | cons s rest ih =>
    by_cases hs : s.success = true
    · by_cases hf : evalIs s .FAIL
      · simp [summaryVerdictGo, hs, hf]
      · simp [summaryVerdictGo, hs, hf, ih]
    · have hs' : s.success = false := by simpa using hs
      constructor
      · intro _
        exact ⟨s, List.mem_cons_self s rest, Or.inl hs'⟩
      · intro _
        simp [summaryVerdictGo, hs']

/-- `summaryVerdictGo` answers PASS iff the accumulator is clear and every
step succeeded with no FAIL and no UNCERTAIN evaluation. -/
theorem summaryVerdictGo_eq_PASS (steps : List StepExecutionResult) (b : Bool) :
    summaryVerdictGo steps b = .PASS ↔
      b = false ∧ ∀ s ∈ steps, s.success = true
        ∧ ¬ evalIs s .FAIL ∧ ¬ evalIs s .UNCERTAIN := by
  induction steps generalizing b with
  | nil => cases b <;> simp [summaryVerdictGo]
  | cons s rest ih =>
    by_cases hs : s.success = true
    · by_cases hf : evalIs s .FAIL
      · simp [summaryVerdictGo, hs, hf]
      · by_cases hu : evalIs s .UNCERTAIN
        · simp [summaryVerdictGo, hs, hf, hu, ih]
        · simp [summaryVerdictGo, hs, hf, hu, ih]
    · have hs' : s.success = false := by simpa using hs
      simp [summaryVerdictGo, hs']

/-- `summaryVerdictGo` answers UNCERTAIN iff no step failed or was evaluated
FAIL, and the accumulator was set or some step was evaluated UNCERTAIN. -/
theorem summaryVerdictGo_eq_UNCERTAIN (steps : List StepExecutionResult) (b : Bool) :
    summaryVerdictGo steps b = .UNCERTAIN ↔
      (∀ s ∈ steps, s.success = true ∧ ¬ evalIs s .FAIL)
      ∧ (b = true ∨ ∃ s ∈ steps, evalIs s .UNCERTAIN) := by
  induction steps generalizing b with
  | nil => cases b <;> simp [summaryVerdictGo]
  | cons s rest ih =>
    by_cases hs : s.success = true
    · by_cases hf : evalIs s .FAIL
      · simp [summaryVerdictGo, hs, hf]
      · by_cases hu : evalIs s .UNCERTAIN
        · simp [summaryVerdictGo, hs, hf, hu, ih]
        · simp [summaryVerdictGo, hs, hf, hu, ih]
    · have hs' : s.success = false := by simpa using hs
      simp [summaryVerdictGo, hs']

/-- C1: `computeSummaryVerdict` is a pure function of the step-result list;
it answers FAIL iff some step has `success = false` or an evaluation with
result FAIL; PASS iff no step triggers FAIL and additionally no step has an
UNCERTAIN evaluation; and UNCERTAIN in the remaining case. -/
theorem computeSummaryVerdict_spec (steps : List StepExecutionResult) :
    (computeSummaryVerdict steps = .FAIL ↔
      ∃ s ∈ steps, s.success = false ∨ evalIs s .FAIL)
    ∧ (computeSummaryVerdict steps = .PASS ↔
      (∀ s ∈ steps, s.success = true ∧ ¬ evalIs s .FAIL)
      ∧ ∀ s ∈ steps, ¬ evalIs s .UNCERTAIN)
    ∧ (computeSummaryVerdict steps = .UNCERTAIN ↔
      (∀ s ∈ steps, s.success = true ∧ ¬ evalIs s .FAIL)
      ∧ ∃ s ∈ steps, evalIs s .UNCERTAIN) := by
  refine ⟨summaryVerdictGo_eq_FAIL steps false, ?_, ?_⟩
  · rw [computeSummaryVerdict, summaryVerdictGo_eq_PASS]
    constructor
    · rintro ⟨-, hall⟩
      exact ⟨fun s hsm => ⟨(hall s hsm).1, (hall s hsm).2.1⟩,
        fun s hsm => (hall s hsm).2.2⟩
    · rintro ⟨h1, h2⟩
      exact ⟨rfl, fun s hsm => ⟨(h1 s hsm).1, (h1 s hsm).2, h2 s hsm⟩⟩
  · rw [computeSummaryVerdict, summaryVerdictGo_eq_UNCERTAIN]
    simp

/-- A value accepted by `z.string().min(1)` is non-empty. -/
theorem zStringMin1_some {j : Json} {s : String} (h : zStringMin1 j = some s) :
    s ≠ "" := by
  cases j with
  | str t =>
    have h' : (if t = "" then none else some t) = some s := by
      simpa [zStringMin1, zString] using h
    by_cases he : t = ""
    · rw [if_pos he] at h'
      exact absurd h' (by simp)
    · rw [if_neg he] at h'
      rw [← Option.some.inj h']
      exact he
  | null => simp [zStringMin1, zString] at h
  | bool b => simp [zStringMin1, zString] at h
  | num q => simp [zStringMin1, zString] at h
  | arr xs => simp [zStringMin1, zString] at h
  | obj l => simp [zStringMin1, zString] at h

/-- A value accepted by the confidence validator lies in [0,1]. -/
theorem zConfidence_some {j : Json} {c : ℚ} (h : zConfidence j = some c) :
    0 ≤ c ∧ c ≤ 1 := by
  cases j with
  | num q =>
    unfold zConfidence at h
    dsimp only at h
    by_cases hin : 0 ≤ q ∧ q ≤ 1
    · rw [if_pos hin] at h
      exact (Option.some.inj h) ▸ hin
    · rw [if_neg hin] at h
      exact absurd h (by simp)
  | null => simp [zConfidence] at h
  | bool b => simp [zConfidence] at h
  | str s => simp [zConfidence] at h
  | arr xs => simp [zConfidence] at h
  | obj l => simp [zConfidence] at h

/-- Every evaluation result accepted by the schema validator has confidence
in [0,1] and a non-empty reason. -/
theorem parseEvaluationResultJson_ok {j : Json} {e : EvaluationResult}
    (h : parseEvaluationResultJson j = some e) :
    0 ≤ e.confidence ∧ e.confidence ≤ 1 ∧ e.reason ≠ "" := by
  cases j with
  | obj fields =>
    simp only [parseEvaluationResultJson, Option.bind_eq_bind,
      Option.bind_eq_some] at h
    obtain ⟨v, hv, c, hc, r, hr, he⟩ := h
    have he' : e = ⟨v, c, r⟩ := (Option.some.inj he).symm
    subst he'
    obtain ⟨jc, -, hjc⟩ := hc
    obtain ⟨jr, -, hjr⟩ := hr
    exact ⟨(zConfidence_some hjc).1, (zConfidence_some hjc).2,
      zStringMin1_some hjr⟩
  | null => exact absurd h (by simp [parseEvaluationResultJson])
  | bool b => exact absurd h (by simp [parseEvaluationResultJson])
  | num q => exact absurd h (by simp [parseEvaluationResultJson])
  | str s => exact absurd h (by simp [parseEvaluationResultJson])
  | arr xs => exact absurd h (by simp [parseEvaluationResultJson])

/-- Every `tryParse` success in the evaluator satisfies the schema bounds. -/
theorem tryParseEvaluation_ok {x : Option Json} {e : EvaluationResult}
    (h : tryParseEvaluation x = .ok e) :
    0 ≤ e.confidence ∧ e.confidence ≤ 1 ∧ e.reason ≠ "" := by
  cases x with
  | none => exact absurd h (by simp [tryParseEvaluation])
  | some j =>
    unfold tryParseEvaluation at h
    dsimp only at h
    cases hm : parseEvaluationResultJson (clampConfidence j) with
    | none => rw [hm] at h; exact absurd h (by simp)
    | some e' =>
      rw [hm] at h
      have : e' = e := by simpa using h
      subst this
      exact parseEvaluationResultJson_ok hm

/-- C4: the evaluator never propagates a parse/validation failure.  Every
result it returns has confidence in [0,1] and a non-empty reason; when both
the first attempt and the repair attempt fail to parse, it returns exactly
the UNCERTAIN fallback; when the first attempt succeeds the repair response
is never consulted; and a numeric confidence — of any magnitude — is
clamped into [0,1] before schema validation, so an out-of-range confidence
does not fail validation. -/
theorem evaluateStep_contract :
    (∀ f s : Option Json,
      0 ≤ (evaluateStep f s).confidence ∧ (evaluateStep f s).confidence ≤ 1
        ∧ (evaluateStep f s).reason ≠ "")
    ∧ (∀ f s : Option Json,
        (tryParseEvaluation f).isOk = false → (tryParseEvaluation s).isOk = false →
        evaluateStep f s = UNCERTAIN_FALLBACK)
    ∧ (∀ (f s s' : Option Json) (e : EvaluationResult),
        tryParseEvaluation f = .ok e → evaluateStep f s = e ∧ evaluateStep f s' = e)
    ∧ (∀ (c : ℚ) (v : Verdict) (r : String), r ≠ "" →
        tryParseEvaluation (some (.obj
          [("result", .str (verdictString v)),
           ("confidence", .num c),
           ("reason", .str r)])) = .ok ⟨v, max 0 (min 1 c), r⟩) := by
  refine ⟨?_, ?_, ?_, ?_⟩
  · intro f s
    cases h1 : tryParseEvaluation f with
    | ok e =>
      have := tryParseEvaluation_ok h1
      simpa [evaluateStep, h1] using this
    | error m1 =>
      cases h2 : tryParseEvaluation s with
      | ok e =>
        have := tryParseEvaluation_ok h2
        simpa [evaluateStep, h1, h2] using this
      | error m2 =>
        refine ⟨?_, ?_, ?_⟩ <;>
          simp [evaluateStep, h1, h2, UNCERTAIN_FALLBACK]
  · intro f s hf hs
    cases h1 : tryParseEvaluation f with
    | ok e => rw [h1] at hf; exact absurd hf (by simp [Except.isOk, Except.toBool])
    | error m1 =>
      cases h2 : tryParseEvaluation s with
      | ok e => rw [h2] at hs; exact absurd hs (by simp [Except.isOk, Except.toBool])
      | error m2 => simp [evaluateStep, h1, h2]
  · intro f s s' e h
    constructor <;> simp [evaluateStep, h]
  · intro c v r hr
    have hM : 0 ≤ max 0 (min 1 c) ∧ max 0 (min 1 c) ≤ 1 :=
      ⟨le_max_left 0 _, max_le (by norm_num) (min_le_left 1 c)⟩
    cases v <;>
      simp [tryParseEvaluation, clampConfidence, parseEvaluationResultJson,
        getField, setField, List.find?, verdictString, zVerdict, zConfidence,
        zStringMin1, zString, hr, hM]

/-- C4 witness: a concrete out-of-range confidence is clamped and accepted. -/
theorem evaluateStep_contract_witness :
    tryParseEvaluation (some (.obj
      [("result", .str (verdictString .PASS)),
       ("confidence", .num 3),
       ("reason", .str "looks good")])) = .ok ⟨.PASS, max 0 (min 1 3), "looks good"⟩ :=
  evaluateStep_contract.2.2.2 3 .PASS "looks good" (by decide)

/-- A value accepted by `z.string().min(1)` is the string literal itself,
and non-empty. -/
theorem zStringMin1_char {j : Json} {s : String} (h : zStringMin1 j = some s) :
    j = .str s ∧ s ≠ "" := by
  cases j with
  | str t =>
    have h' : (if t = "" then none else some t) = some s := by
      simpa [zStringMin1, zString] using h
    by_cases he : t = ""
    · rw [if_pos he] at h'
      exact absurd h' (by simp)
    · rw [if_neg he] at h'
      have ht : t = s := Option.some.inj h'
      subst ht
      exact ⟨rfl, he⟩
  | null => simp [zStringMin1, zString] at h
  | bool b => simp [zStringMin1, zString] at h
  | num q => simp [zStringMin1, zString] at h
  | arr xs => simp [zStringMin1, zString] at h
  | obj l => simp [zStringMin1, zString] at h

/-- Fixup 1 is a no-op when the description is already a non-empty string. -/
theorem fixupDescription_noop {fields : List (String × Json)} {d : String}
    (hg : getField fields "description" = some (.str d)) (hd : d ≠ "") :
    fixupDescription fields = fields := by
  unfold fixupDescription
  rw [hg]
  simp [jsFalsy, hd]

/-- Fixup 2 is a no-op when every selector strategy present is valid. -/
theorem fixupSelector_noop {fields : List (String × Json)}
    (hsel : ∀ sel strat v, getField fields "selector" = some (.obj sel) →
      getField sel "strategy" = some (.str strat) →
      getField sel "value" = some (.str v) → strat ∈ validStrategies) :
    fixupSelector fields = fields := by
  unfold fixupSelector
  cases hs : getField fields "selector" with
  | none => rfl
  | some js =>
    cases js with
    | obj sel =>
      dsimp only
      cases hstrat : getField sel "strategy" with
      | none => rfl
      | some jstrat =>
        cases jstrat with
        | str strat =>
          cases hval : getField sel "value" with
          | none => rfl
          | some jval =>
            cases jval with
            | str v =>
              dsimp only
              rw [if_pos (hsel sel strat v hs hstrat hval)]
            | null => rfl
            | bool b => rfl
            | num q => rfl
            | arr xs => rfl
            | obj l => rfl
        | null => rfl
        | bool b => rfl
        | num q => rfl
        | arr xs => rfl
        | obj l => rfl
    | null => rfl
    | bool b => rfl
    | num q => rfl
    | str s => rfl
    | arr xs => rfl

/-- Fixup 3 is a no-op when an `expect_text` type implies a non-empty string
value (and for every other type unconditionally). -/
theorem fixupExpectText_noop {fields : List (String × Json)}
    (hv : getField fields "type" = some (.str "expect_text") →
      ∃ v, getField fields "value" = some (.str v) ∧ v ≠ "") :
    fixupExpectText fields = fields := by
  unfold fixupExpectText
  cases ht : getField fields "type" with
  | none => rfl
  | some jt =>
    cases jt with
    | str t =>
      dsimp only
      by_cases hte : t = "expect_text"
      · subst hte
        obtain ⟨v, hgv, hvne⟩ := hv ht
        rw [if_neg]
        rintro ⟨-, hfal⟩
        rw [hgv] at hfal
        simp [jsFalsy, hvne] at hfal
      · rw [if_neg]
        rintro ⟨h1, -⟩
        exact hte h1
    | null => rfl
    | bool b => rfl
    | num q => rfl
    | arr xs => rfl
    | obj l => rfl

/-- A schema-accepted step element is left unchanged by the per-element
repair walk, provided its raw selector strategies are already valid. -/
theorem fixupRawStep_noop {e : Json} {st : Step}
    (hp : parseStepJson e = some st) (hok : rawStepStrategyOk e = true) :
    fixupRawStep e = e := by
  cases e with
  | obj fields =>
    simp only [parseStepJson, Option.bind_eq_bind, Option.bind_eq_some] at hp
    obtain ⟨d, ⟨jd, hjd, hzd⟩, hp⟩ := hp
    obtain ⟨hjd', hdne⟩ := zStringMin1_char hzd
    subst hjd'
    obtain ⟨topt, -, hm⟩ := hp
    have hA : fixupDescription fields = fields := fixupDescription_noop hjd hdne
    have hB : fixupSelector fields = fields := by
      refine fixupSelector_noop ?_
      intro sel strat v hs hstrat hval
      unfold rawStepStrategyOk at hok
      simp only [hs, hstrat, hval] at hok
      exact of_decide_eq_true hok
    have hC : fixupExpectText fields = fields := by
      refine fixupExpectText_noop ?_
      intro htype
      rw [htype] at hm
      simp only [Option.bind_eq_bind, Option.bind_eq_some] at hm
      obtain ⟨sel, -, v, ⟨jv, hjv, hzv⟩, -⟩ := hm
      obtain ⟨hjv', hvne⟩ := zStringMin1_char hzv
      subst hjv'
      exact ⟨v, hjv, hvne⟩
    show Json.obj (fixupExpectText (fixupSelector (fixupDescription fields)))
      = Json.obj fields
    rw [hA, hB, hC]
  | null => exact absurd hp (by simp [parseStepJson])
  | bool b => exact absurd hp (by simp [parseStepJson])
  | num q => exact absurd hp (by simp [parseStepJson])
  | str s => exact absurd hp (by simp [parseStepJson])
  | arr xs => exact absurd hp (by simp [parseStepJson])

/-- The element-wise map of the repair walk is the identity on a
schema-accepted, strategy-valid element list. -/
theorem fixup_map_noop : ∀ (elems : List Json) (P : List Step),
    parseStepElems elems = some P →
    (∀ e ∈ elems, rawStepStrategyOk e = true) →
    elems.map fixupRawStep = elems := by
  intro elems
  induction elems with
  | nil => intro P _ _; rfl
  | cons x rest ih =>
    intro P hp hall
    simp only [parseStepElems, Option.bind_eq_bind, Option.bind_eq_some] at hp
    obtain ⟨s, hs, ps, hps, -⟩ := hp
    have hx : fixupRawStep x = x :=
      fixupRawStep_noop hs (hall x (List.mem_cons_self x rest))
    have hr : rest.map fixupRawStep = rest :=
      ih ps hps (fun e he => hall e (List.mem_cons_of_mem x he))
    simp [hx, hr]

/-- C7: `fixupRawSteps` is the identity on already-valid input — a parsed
JSON value that satisfies the step-list schema (non-empty descriptions and
non-empty `expect_text` values come with schema acceptance) and whose raw
selector strategies are all among testid/role/text/css passes through the
repair unchanged. -/
theorem fixupRawSteps_identity_on_valid (j : Json) (P : List Step)
    (h1 : parseStepList j = some P) (h2 : rawStrategiesValid j = true) :
    fixupRawSteps j = j := by
  cases j with
  | arr elems =>
    unfold fixupRawSteps
    unfold parseStepList at h1
    dsimp only at h1 ⊢
    by_cases hne : elems.isEmpty
    · rw [if_pos hne] at h1
      exact absurd h1 (by simp)
    · rw [if_neg hne] at h1
      unfold rawStrategiesValid at h2
      have hall := List.all_eq_true.mp h2
      rw [fixup_map_noop elems P h1 (fun e he => hall e he)]
  | null => exact absurd h1 (by simp [parseStepList])
  | bool b => exact absurd h1 (by simp [parseStepList])
  | num q => exact absurd h1 (by simp [parseStepList])
  | str s => exact absurd h1 (by simp [parseStepList])
  | obj l => exact absurd h1 (by simp [parseStepList])

/-- C7 witness: a concrete already-valid plan passes through the repair
unchanged. -/
theorem fixupRawSteps_identity_on_valid_witness :
    fixupRawSteps singleGotoPlanJson = singleGotoPlanJson :=
  fixupRawSteps_identity_on_valid singleGotoPlanJson
    [Step.goto "open the page" Option.none "http://example.test/"] rfl rfl

/-- `deepSortFields` recursively sorts each value, keeping keys in place. -/
theorem deepSortFields_eq_map (l : List (String × Json)) :
    deepSortFields l = l.map (fun p => (p.1, deepSort p.2)) := by
  induction l with
  | nil => rfl
  | cons p rest ih =>
    cases p with
    | mk k v => simp [deepSortFields, ih]

/-- `sortKeys` produces a key-sorted list. -/
theorem sortKeys_sorted (l : List (String × Json)) :
    List.Pairwise (fun a b : String × Json => a.1 ≤ b.1) (sortKeys l) := by
  have h : List.Pairwise (fun a b : String × Json => decide (a.1 ≤ b.1) = true)
      (l.mergeSort (fun a b => a.1 ≤ b.1)) := by
    apply List.sorted_mergeSort
    · intro a b c hab hbc
      exact decide_eq_true (le_trans (of_decide_eq_true hab) (of_decide_eq_true hbc))
    · intro a b
      rcases le_total a.1 b.1 with h | h <;> simp [h]
  exact h.imp of_decide_eq_true

/-- `sortKeys` permutes its input. -/
theorem sortKeys_perm (l : List (String × Json)) : (sortKeys l).Perm l :=
  List.mergeSort_perm l _

/-- A key-sorted list with pairwise-distinct keys is strictly key-sorted. -/
theorem sorted_strict_of_nodup {xs : List (String × Json)}
    (hs : List.Pairwise (fun a b : String × Json => a.1 ≤ b.1) xs)
    (hn : (xs.map Prod.fst).Nodup) :
    List.Pairwise (fun a b : String × Json => a.1 < b.1) xs := by
  have hne : List.Pairwise (fun a b : String × Json => a.1 ≠ b.1) xs :=
    List.pairwise_map.mp hn
  exact (hs.and hne).imp (fun h => lt_of_le_of_ne h.1 h.2)

/-- On lists with duplicate-free keys, `sortKeys` depends only on the
multiset of key-value pairs: permuted inputs sort to the same list. -/
theorem sortKeys_perm_nodup_eq {l m : List (String × Json)}
    (hp : l.Perm m) (hn : (l.map Prod.fst).Nodup) :
    sortKeys l = sortKeys m := by
  have hperm : (sortKeys l).Perm (sortKeys m) :=
    ((sortKeys_perm l).trans hp).trans (sortKeys_perm m).symm
  have hnl : ((sortKeys l).map Prod.fst).Nodup :=
    (List.Perm.nodup_iff ((sortKeys_perm l).map Prod.fst)).mpr hn
  have hnm : ((sortKeys m).map Prod.fst).Nodup := by
    refine (List.Perm.nodup_iff ((sortKeys_perm m).map Prod.fst)).mpr ?_
    exact (List.Perm.nodup_iff (hp.map Prod.fst)).mp hn
  have hsl := sorted_strict_of_nodup (sortKeys_sorted l) hnl
  have hsm := sorted_strict_of_nodup (sortKeys_sorted m) hnm
  haveI : IsAntisymm (String × Json) (fun a b => a.1 < b.1) :=
    ⟨fun a b h₁ h₂ => absurd h₁ (lt_asymm h₂)⟩
  exact List.eq_of_perm_of_sorted hperm hsl hsm

/-- C5: the serialized report is deterministic.  `generateJSON` and
`serializeJSON` are pure functions, so equal inputs give byte-identical
output; any JSON value agreeing with the generated report up to key order
at every nesting level (`deepSort`-equal) serializes to the same bytes;
and, at any single object, inserting duplicate-free keys in a different
order (a permutation of the field list) leaves the serialized bytes
unchanged. -/
theorem serializeJSON_report_deterministic :
    (∀ (run : RunSummary) (exitCode : Int) (j : Json),
      deepSort j = deepSort (generateJSON run exitCode) →
      serializeJSON j = serializeJSON (generateJSON run exitCode))
    ∧ (∀ (l m : List (String × Json)), (l.map Prod.fst).Nodup → l.Perm m →
      serializeJSON (Json.obj l) = serializeJSON (Json.obj m)) := by
  constructor
  · intro run c j h
    unfold serializeJSON
    rw [h]
  · intro l m hn hp
    have hkeys : sortKeys (deepSortFields l) = sortKeys (deepSortFields m) := by
      apply sortKeys_perm_nodup_eq
      · rw [deepSortFields_eq_map, deepSortFields_eq_map]
        exact hp.map _
      · rw [deepSortFields_eq_map]
        have hmap : (l.map (fun p => (p.1, deepSort p.2))).map Prod.fst
            = l.map Prod.fst := by
          simp [Function.comp_def]
        rw [hmap]
        exact hn
    unfold serializeJSON
    simp [deepSort, hkeys]

/-- C5 witness: two field orders of the same object serialize identically. -/
theorem serializeJSON_report_deterministic_witness :
    serializeJSON (Json.obj [("b", Json.null), ("a", Json.bool true)]) =
      serializeJSON (Json.obj [("a", Json.bool true), ("b", Json.null)]) :=
  serializeJSON_report_deterministic.2
    [("b", Json.null), ("a", Json.bool true)]
    [("a", Json.bool true), ("b", Json.null)]
    (by decide) (List.Perm.swap _ _ _)
